import Mathlib

/-
Verification of the prompt-templating and chat-message abstraction layer
described by the repository's specification.  The repository's own script
(src/index.js) only demonstrates call patterns against an external SDK;
the specification reconstructs the minimal core those calls rely on
(Template Engine, Message Model, Model Call Contract).  The definitions
below embed that core, faithful to the specification's words, and the
theorems settle the stated properties.
-/

set_option autoImplicit false

namespace PromptCore

/-- Error taxonomy of the specification: `MissingVariableError` from
template rendering, `InvalidRoleError` from message construction,
`InvalidInputError` from a structurally empty or malformed call input,
and `ProviderError` as an opaque passthrough of provider failures. -/
inductive Err where
  | missingVariable (name : String)
  | invalidRole (role : String)
  | invalidInput (msg : String)
  | providerError (msg : String)
  deriving DecidableEq

/-- Roles of a conversation turn: the closed set system, user, assistant. -/
inductive Role where
  | system
  | user
  | assistant
  deriving DecidableEq

/-- A Message is a role paired with text content; a Conversation is an
ordered list of Messages. -/
structure Message where
  role : Role
  content : String
  deriving DecidableEq

deriving instance DecidableEq for Except

/-- Opening brace character of the placeholder syntax. -/
def lbrace : Char := Char.ofNat 123

/-- Closing brace character of the placeholder syntax. -/
def rbrace : Char := Char.ofNat 125

/-- A segment of a compiled template: literal text or a named placeholder. -/
inductive Seg where
  | lit (s : String)
  | var (name : String)
  deriving DecidableEq

mutual

/-- Modelled from the spec: the compile-once template parser (the source
delegates it to the external SDK's PromptTemplate).  Scans the raw
template text; each opening brace starts a placeholder whose name runs to
the next closing brace; all other characters are literal text. -/
def parseSegs : List Char → List Seg
  | [] => []
  | c :: rest =>
    if c = lbrace then parseVar rest []
    else Seg.lit (String.mk [c]) :: parseSegs rest

/-- Helper of `parseSegs`: inside a placeholder, accumulate name
characters until the closing brace; an unterminated placeholder is kept
as literal text. -/
def parseVar : List Char → List Char → List Seg
  | [], acc => [Seg.lit (String.mk (lbrace :: acc))]
  | c :: rest, acc =>
    if c = rbrace then Seg.var (String.mk acc) :: parseSegs rest
    else parseVar rest (acc ++ [c])

end

/-- Placeholder names referenced by a segment list, in order. -/
def segVars : List Seg → List String
  | [] => []
  | Seg.lit _ :: rest => segVars rest
  | Seg.var n :: rest => n :: segVars rest

/-- Placeholder names referenced by a raw template string. -/
def vars (tpl : String) : List String :=
  segVars (parseSegs tpl.data)

/-- First value bound to a name in a variable mapping, if any. -/
def lookupVar (n : String) : List (String × String) → Option String
  | [] => none
  | p :: rest => if p.1 = n then some p.2 else lookupVar n rest

/-- Concatenation of a list of strings in order. -/
def joinAll : List String → String
  | [] => ""
  | s :: rest => s ++ joinAll rest

/-- Modelled from the spec: rendering one segment under a variable
mapping; a placeholder with no matching entry fails with
`MissingVariableError`. -/
def renderSeg (V : List (String × String)) : Seg → Except Err String
  | Seg.lit s => Except.ok s
  | Seg.var n =>
    match lookupVar n V with
    | some v => Except.ok v
    | none => Except.error (Err.missingVariable n)

/-- Render every segment of a list in order, failing on the first
missing variable. -/
def renderSegs (V : List (String × String)) : List Seg → Except Err (List String)
  | [] => Except.ok []
  | s :: rest =>
    match renderSeg V s with
    | Except.ok piece =>
      match renderSegs V rest with
      | Except.ok pieces => Except.ok (piece :: pieces)
      | Except.error e => Except.error e
    | Except.error e => Except.error e

/-- Modelled from the spec: `render` for a plain-text template
(the source delegates it to the external SDK's PromptTemplate.format).
Single-pass substitution of every placeholder by its value from the
mapping; fails with `MissingVariableError` when a referenced placeholder
has no matching entry. -/
def render (tpl : String) (V : List (String × String)) : Except Err String :=
  match renderSegs V (parseSegs tpl.data) with
  | Except.ok pieces => Except.ok (joinAll pieces)
  | Except.error e => Except.error e

/-- Modelled from the spec: chat-mode rendering (the source delegates it
to the external SDK's ChatPromptTemplate.invoke).  Each (role,
template-string) pair is rendered independently and combined, in
original order, into a Conversation. -/
def renderChat (pairs : List (Role × String)) (V : List (String × String)) :
    Except Err (List Message) :=
  match pairs with
  | [] => Except.ok []
  | p :: rest =>
    match render p.2 V with
    | Except.ok content =>
      match renderChat rest V with
      | Except.ok ms => Except.ok ({ role := p.1, content := content } :: ms)
      | Except.error e => Except.error e
    | Except.error e => Except.error e

/-- Modelled from the spec: message construction (the source delegates
it to the external SDK's SystemMessage, HumanMessage and AIMessage
constructors).  The role is constrained to the set system, user,
assistant; any other role fails with `InvalidRoleError`. -/
def mkMessage (role : String) (content : String) : Except Err Message :=
  if role = "system" then Except.ok { role := Role.system, content := content }
  else if role = "user" then Except.ok { role := Role.user, content := content }
  else if role = "assistant" then Except.ok { role := Role.assistant, content := content }
  else Except.error (Err.invalidRole role)

/-- A RenderedInput is either a plain string or a Conversation: the two
accepted shapes for a model call. -/
inductive RenderedInput where
  | text (s : String)
  | conv (ms : List Message)
  deriving DecidableEq

/-- A GenerationResult is one textual output of the model; its optional
metadata is opaque provider output and is not modelled in depth. -/
structure GenerationResult where
  content : String
  deriving DecidableEq

/-- Structural validity of a call input: an empty Conversation is the
demonstrated structurally invalid input. -/
def structurallyValid : RenderedInput → Bool
  | RenderedInput.conv [] => false
  | _ => true

/-- Modelled from the spec: `invoke` (the source delegates it to the
external SDK's model.invoke).  A structurally empty input fails eagerly
with `InvalidInputError` before any provider interaction; otherwise the
single result of the deterministic provider `gen` is returned.  The
provider is an opaque external collaborator, so it is a parameter. -/
def invoke (gen : RenderedInput → String) (input : RenderedInput) :
    Except Err GenerationResult :=
  if structurallyValid input then Except.ok { content := gen input }
  else Except.error (Err.invalidInput "empty conversation")

/-- Chunking of a full text into a finite ordered list of fragments, one
per character; the streaming contract only requires that concatenating
the chunks in arrival order reconstructs the full text. -/
def chunksOf : List Char → List String
  | [] => []
  | c :: rest => String.mk [c] :: chunksOf rest

/-- Modelled from the spec: `stream` (the source delegates it to the
external SDK's model.stream).  With a deterministic provider, streaming
yields a finite ordered chunk sequence of the same text `invoke`
returns. -/
def stream (gen : RenderedInput → String) (input : RenderedInput) :
    Except Err (List String) :=
  match invoke gen input with
  | Except.ok r => Except.ok (chunksOf r.content.data)
  | Except.error e => Except.error e

/-- Modelled from the spec: `batch` (the source delegates it to the
external SDK's model.batch).  Each input is handled as by `invoke`; the
results form an ordered one-to-one sequence, and the whole call fails on
the first invalid input with no partial result sequence. -/
def batch (gen : RenderedInput → String) : List RenderedInput →
    Except Err (List GenerationResult)
  | [] => Except.ok []
  | i :: rest =>
    match invoke gen i with
    | Except.ok r =>
      match batch gen rest with
      | Except.ok rs => Except.ok (r :: rs)
      | Except.error e => Except.error e
    | Except.error e => Except.error e

/-- A string is brace free when it contains no opening brace, i.e. no
start of placeholder syntax. -/
def braceFreeB (s : String) : Bool :=
  s.data.all (fun c => decide (c ≠ lbrace))

/-- Every literal segment of a compiled template is brace free. -/
def litsBraceFree (segs : List Seg) : Bool :=
  segs.all (fun g =>
    match g with
    | Seg.lit s => braceFreeB s
    | Seg.var _ => true)

/-- Every value of a variable mapping is brace free. -/
def valsBraceFree (V : List (String × String)) : Bool :=
  V.all (fun p => braceFreeB p.2)

theorem braceFreeB_iff (s : String) : braceFreeB s = true ↔ lbrace ∉ s.data := by
  simp only [braceFreeB, List.all_eq_true, decide_eq_true_eq]
  constructor
  · intro h hm
    exact h lbrace hm rfl
  · intro h c hc hceq
    exact h (hceq ▸ hc)

theorem data_append (a b : String) : (a ++ b).data = a.data ++ b.data := rfl

theorem mem_joinAll (c : Char) :
    ∀ pieces : List String, c ∈ (joinAll pieces).data ↔ ∃ p ∈ pieces, c ∈ p.data
  | [] => by simp [joinAll]
  | s :: rest => by
    simp [joinAll, data_append, mem_joinAll c rest]

theorem segVars_parseSegs_of_no_lbrace :
    ∀ l : List Char, lbrace ∉ l → segVars (parseSegs l) = []
  | [], _ => rfl
  | c :: rest, h => by
    have hc : ¬c = lbrace := fun hceq => h (hceq ▸ List.mem_cons_self c rest)
    have hrest : lbrace ∉ rest := fun hm => h (List.mem_cons_of_mem c hm)
    simp [parseSegs, hc, segVars, segVars_parseSegs_of_no_lbrace rest hrest]

theorem lookupVar_some_mem (n v : String) :
    ∀ V : List (String × String), lookupVar n V = some v → ∃ p ∈ V, p.2 = v
  | [], h => by simp [lookupVar] at h
  | p :: rest, h => by
    by_cases hp : p.1 = n
    · simp [lookupVar, hp] at h
      exact ⟨p, List.mem_cons_self p rest, h⟩
    · simp [lookupVar, hp] at h
      obtain ⟨q, hq, hqv⟩ := lookupVar_some_mem n v rest h
      exact ⟨q, List.mem_cons_of_mem p hq, hqv⟩

theorem renderSegs_ok (V : List (String × String)) :
    ∀ segs : List Seg, (∀ n ∈ segVars segs, (lookupVar n V).isSome = true) →
    ∃ outs, renderSegs V segs = Except.ok outs
  | [], _ => ⟨[], rfl⟩
  | Seg.lit s :: rest, h => by
    obtain ⟨outs, houts⟩ := renderSegs_ok V rest (by
      intro n hn
      exact h n (by simpa [segVars] using hn))
    exact ⟨s :: outs, by simp [renderSegs, renderSeg, houts]⟩
  | Seg.var n :: rest, h => by
    have hn : (lookupVar n V).isSome = true := h n (by simp [segVars])
    obtain ⟨v, hv⟩ := Option.isSome_iff_exists.mp hn
    obtain ⟨outs, houts⟩ := renderSegs_ok V rest (by
      intro m hm
      exact h m (by simp [segVars, hm]))
    exact ⟨v :: outs, by simp [renderSegs, renderSeg, hv, houts]⟩

theorem renderSegs_braceFree (V : List (String × String)) (hV : valsBraceFree V = true) :
    ∀ (segs : List Seg) (outs : List String), litsBraceFree segs = true →
    renderSegs V segs = Except.ok outs → ∀ p ∈ outs, lbrace ∉ p.data
  | [], outs, _, hout => by
    have hnil : outs = [] := (Except.ok.inj (hout : Except.ok [] = Except.ok outs)).symm
    intro p hp
    simp [hnil] at hp
  | Seg.lit s :: rest, outs, hlits, hout => by
    have hs : braceFreeB s = true := by
      have := (List.all_eq_true.mp hlits) (Seg.lit s) (List.mem_cons_self _ _)
      simpa using this
    have hrest : litsBraceFree rest = true := by
      apply List.all_eq_true.mpr
      intro g hg
      exact (List.all_eq_true.mp hlits) g (List.mem_cons_of_mem _ hg)
    simp only [renderSegs, renderSeg] at hout
    cases heq : renderSegs V rest with
    | error e => simp [heq] at hout
    | ok rs =>
      simp [heq] at hout
      intro p hp
      rw [hout.symm] at hp
      rcases List.mem_cons.mp hp with hps | hprs
      · exact hps ▸ (braceFreeB_iff s).mp hs
      · exact renderSegs_braceFree V hV rest rs hrest heq p hprs
  | Seg.var n :: rest, outs, hlits, hout => by
    have hrest : litsBraceFree rest = true := by
      apply List.all_eq_true.mpr
      intro g hg
      exact (List.all_eq_true.mp hlits) g (List.mem_cons_of_mem _ hg)
    simp only [renderSegs, renderSeg] at hout
    cases hl : lookupVar n V with
    | none => simp [hl] at hout
    | some v =>
      cases heq : renderSegs V rest with
      | error e => simp [hl, heq] at hout
      | ok rs =>
        simp [hl, heq] at hout
        intro p hp
        rw [hout.symm] at hp
        rcases List.mem_cons.mp hp with hpv | hprs
        · obtain ⟨q, hq, hqv⟩ := lookupVar_some_mem n v V hl
          have : braceFreeB q.2 = true := (List.all_eq_true.mp hV) q hq
          exact hpv ▸ (hqv ▸ (braceFreeB_iff q.2).mp this)
        · exact renderSegs_braceFree V hV rest rs hrest heq p hprs

theorem renderSegs_missing (V : List (String × String)) :
    ∀ segs : List Seg, (∃ n, n ∈ segVars segs ∧ lookupVar n V = none) →
    ∃ m, renderSegs V segs = Except.error (Err.missingVariable m)
  | [], h => by
    obtain ⟨n, hn, _⟩ := h
    simp [segVars] at hn
  | Seg.lit s :: rest, h => by
    obtain ⟨m, hm⟩ := renderSegs_missing V rest (by
      obtain ⟨n, hn, hno⟩ := h
      exact ⟨n, by simpa [segVars] using hn, hno⟩)
    exact ⟨m, by simp [renderSegs, renderSeg, hm]⟩
  | Seg.var n' :: rest, h => by
    cases hl : lookupVar n' V with
    | none => exact ⟨n', by simp [renderSegs, renderSeg, hl]⟩
    | some v =>
      obtain ⟨n, hn, hno⟩ := h
      have hcase : n = n' ∨ n ∈ segVars rest := by simpa [segVars] using hn
      have hnrest : n ∈ segVars rest := by
        rcases hcase with he | hr
        · rw [he] at hno
          rw [hno] at hl
          exact absurd hl (by simp)
        · exact hr
      obtain ⟨m, hm⟩ := renderSegs_missing V rest ⟨n, hnrest, hno⟩
      exact ⟨m, by simp [renderSegs, renderSeg, hl, hm]⟩

theorem renderSegs_congr (V1 V2 : List (String × String)) :
    ∀ segs : List Seg, (∀ n ∈ segVars segs, lookupVar n V1 = lookupVar n V2) →
    renderSegs V1 segs = renderSegs V2 segs
  | [], _ => rfl
  | Seg.lit s :: rest, h => by
    simp [renderSegs, renderSeg,
      renderSegs_congr V1 V2 rest (fun n hn => h n (by simp [segVars, hn]))]
  | Seg.var n :: rest, h => by
    have hn := h n (by simp [segVars])
    simp [renderSegs, renderSeg, hn,
      renderSegs_congr V1 V2 rest (fun m hm => h m (by simp [segVars, hm]))]

theorem lookupVar_append_left (n : String) :
    ∀ V extra : List (String × String), (lookupVar n V).isSome = true →
    lookupVar n (V ++ extra) = lookupVar n V
  | [], _, h => by simp [lookupVar] at h
  | p :: rest, extra, h => by
    by_cases hp : p.1 = n
    · simp [lookupVar, hp]
    · have hrest : (lookupVar n rest).isSome = true := by simpa [lookupVar, hp] using h
      simp [lookupVar, hp, lookupVar_append_left n rest extra hrest]

theorem mk_append (a b : List Char) : String.mk a ++ String.mk b = String.mk (a ++ b) := rfl

theorem joinAll_chunksOf : ∀ l : List Char, joinAll (chunksOf l) = String.mk l
  | [] => rfl
  | c :: rest => by
    show String.mk [c] ++ joinAll (chunksOf rest) = String.mk (c :: rest)
    rw [joinAll_chunksOf rest, mk_append]
    rfl

theorem chunksOf_length : ∀ l : List Char, (chunksOf l).length = l.length
  | [] => rfl
  | _ :: rest => by simp [chunksOf, chunksOf_length rest]

theorem renderChat_spec :
    ∀ (pairs : List (Role × String)) (V : List (String × String)) (ms : List Message),
      renderChat pairs V = Except.ok ms →
      ms.map Message.role = pairs.map Prod.fst ∧
      ∀ (i : Nat) (h1 : i < pairs.length) (h2 : i < ms.length),
        render (pairs.get ⟨i, h1⟩).2 V = Except.ok ((ms.get ⟨i, h2⟩).content)
  | [], V, ms, h => by
    have hnil : ms = [] := (Except.ok.inj (h : Except.ok [] = Except.ok ms)).symm
    subst hnil
    refine ⟨rfl, ?_⟩
    intro i h1 _
    simp at h1
  | p :: rest, V, ms, h => by
    simp only [renderChat] at h
    cases hr : render p.2 V with
    | error e => rw [hr] at h; exact absurd h (by simp)
    | ok content =>
      rw [hr] at h
      cases hc : renderChat rest V with
      | error e => rw [hc] at h; exact absurd h (by simp)
      | ok tail =>
        rw [hc] at h
        have hms : ms = { role := p.1, content := content } :: tail := (Except.ok.inj h).symm
        subst hms
        obtain ⟨hroles, hcontents⟩ := renderChat_spec rest V tail hc
        refine ⟨by simp [hroles], ?_⟩
        intro i h1 h2
        cases i with
        | zero => simpa using hr
        | succ j =>
          simp only [List.get_cons_succ]
          exact hcontents j (Nat.lt_of_succ_lt_succ h1) (Nat.lt_of_succ_lt_succ h2)

theorem batch_ok (gen : RenderedInput → String) :
    ∀ inputs : List RenderedInput, (∀ i ∈ inputs, structurallyValid i = true) →
    batch gen inputs = Except.ok (inputs.map (fun i => { content := gen i }))
  | [], _ => rfl
  | i :: rest, h => by
    have hi : structurallyValid i = true := h i (List.mem_cons_self _ _)
    simp [batch, invoke, hi,
      batch_ok gen rest (fun j hj => h j (List.mem_cons_of_mem _ hj))]

theorem batch_err (gen : RenderedInput → String) :
    ∀ inputs : List RenderedInput, (∃ i ∈ inputs, structurallyValid i = false) →
    ∃ e, batch gen inputs = Except.error e
  | [], h => by simp at h
  | i :: rest, h => by
    cases hv : structurallyValid i with
    | false =>
      refine ⟨Err.invalidInput "empty conversation", ?_⟩
      simp [batch, invoke, hv]
    | true =>
      obtain ⟨j, hj, hjv⟩ := h
      have hjrest : j ∈ rest := by
        rcases List.mem_cons.mp hj with he | hr
        · rw [he] at hjv
          rw [hjv] at hv
          exact absurd hv (by simp)
        · exact hr
      obtain ⟨e, he⟩ := batch_err gen rest ⟨j, hjrest, hjv⟩
      exact ⟨e, by simp [batch, invoke, hv, he]⟩

example : vars "What is the capital of {country}?" = ["country"] := by decide

example : mkMessage "narrator" "x" = Except.error (Err.invalidRole "narrator") := by decide

example : invoke (fun _ => "hi") (RenderedInput.conv []) =
    Except.error (Err.invalidInput "empty conversation") := by decide

example : stream (fun _ => "hi") (RenderedInput.text "q") =
    Except.ok ["h", "i"] := by decide

example : batch (fun _ => "out") [RenderedInput.text "a", RenderedInput.conv []] =
    Except.error (Err.invalidInput "empty conversation") := by decide

example : render "What is the capital of {country}?" [("country", "India")] =
    Except.ok "What is the capital of India?" := by decide

example : render "What is the capital of {country}?" [] =
    Except.error (Err.missingVariable "country") := by decide

/-- Pairs of the chat template demonstrated in the source: a system
message asking for translation and a user message holding the text. -/
def srcPairs : List (Role × String) :=
  [(Role.system, "Translate the following text to {language}."), (Role.user, "{text}")]

/-- Variable mapping of the round-trip example. -/
def srcVarMap : List (String × String) :=
  [("language", "Spanish"), ("text", "Good morning!")]

/-- Claim C1, counterexample to the literal statement: the mapping
binds the single placeholder of the template, yet the substituted value
itself carries placeholder syntax, which the single-pass renderer leaves
in the result, so the result is not free of placeholder syntax. -/
theorem claim1_counterexample :
    (∀ n ∈ vars "{a}", (lookupVar n [("a", "{b}")]).isSome = true) ∧
    render "{a}" [("a", "{b}")] = Except.ok "{b}" ∧
    vars "{b}" ≠ [] := by decide

/-- Claim C1 (amended): for every template and every mapping supplying
all referenced placeholders, rendering succeeds; and when the template's
literal segments and the supplied values carry no opening brace, the
result contains no residual placeholder syntax.  Substitution is single
pass: values are inserted verbatim, never re-substituted. -/
theorem claim1_theorem (tpl : String) (V : List (String × String))
    (hsup : ∀ n ∈ vars tpl, (lookupVar n V).isSome = true) :
    (∃ out, render tpl V = Except.ok out) ∧
    (litsBraceFree (parseSegs tpl.data) = true → valsBraceFree V = true →
      ∀ out, render tpl V = Except.ok out → vars out = []) := by
  obtain ⟨outs, houts⟩ := renderSegs_ok V (parseSegs tpl.data) hsup
  constructor
  · exact ⟨joinAll outs, by simp [render, houts]⟩
  · intro hlits hvals out hout
    have hout2 : out = joinAll outs := by
      simp [render, houts] at hout
      exact hout.symm
    have hpieces := renderSegs_braceFree V hvals (parseSegs tpl.data) outs hlits houts
    have hnol : lbrace ∉ out.data := by
      rw [hout2]
      intro hm
      obtain ⟨p, hp, hcp⟩ := (mem_joinAll lbrace outs).mp hm
      exact hpieces p hp hcp
    exact segVars_parseSegs_of_no_lbrace out.data hnol

/-- Witness for claim C1 at the source's own template and mapping. -/
theorem claim1_witness :
    (∀ n ∈ vars "What is the capital of {country}?",
      (lookupVar n [("country", "India")]).isSome = true) ∧
    ((∃ out, render "What is the capital of {country}?" [("country", "India")] =
        Except.ok out) ∧
      (litsBraceFree (parseSegs "What is the capital of {country}?".data) = true →
        valsBraceFree [("country", "India")] = true →
        ∀ out, render "What is the capital of {country}?" [("country", "India")] =
          Except.ok out → vars out = [])) :=
  ⟨by decide, claim1_theorem "What is the capital of {country}?" [("country", "India")]
    (by decide)⟩

/-- Claim C2: a mapping missing a referenced placeholder makes rendering
fail with `MissingVariableError`; no partially substituted result is
returned. -/
theorem claim2_theorem (tpl : String) (V : List (String × String))
    (h : ∃ n ∈ vars tpl, lookupVar n V = none) :
    (∃ m, render tpl V = Except.error (Err.missingVariable m)) ∧
    ∀ out, render tpl V ≠ Except.ok out := by
  obtain ⟨m, hm⟩ := renderSegs_missing V (parseSegs tpl.data) (by
    obtain ⟨n, hn, hnone⟩ := h
    exact ⟨n, hn, hnone⟩)
  refine ⟨⟨m, by simp [render, hm]⟩, ?_⟩
  intro out hout
  simp [render, hm] at hout

/-- Witness for claim C2: rendering the source's template with an empty
mapping fails. -/
theorem claim2_witness :
    (∃ n ∈ vars "What is the capital of {country}?",
      lookupVar n ([] : List (String × String)) = none) ∧
    ((∃ m, render "What is the capital of {country}?" [] =
        Except.error (Err.missingVariable m)) ∧
      ∀ out, render "What is the capital of {country}?" [] ≠ Except.ok out) :=
  ⟨by decide, claim2_theorem "What is the capital of {country}?" [] (by decide)⟩

/-- Claim C3, counterexample to the literal statement: the source's
system template reads "Translate the following text to {language}.", so
its rendering is not the shortened sentence "Translate to Spanish."
stated by the claim. -/
theorem claim3_counterexample :
    renderChat srcPairs srcVarMap ≠
      Except.ok [{ role := Role.system, content := "Translate to Spanish." },
                 { role := Role.user, content := "Good morning!" }] := by decide

/-- Claim C3 (amended): rendering the source's chat template under the
given mapping yields the system message "Translate the following text to
Spanish." followed by the user message "Good morning!"; in general each
(role, template) pair is rendered independently and the output
Conversation keeps the original order with roles unchanged. -/
theorem claim3_theorem :
    renderChat srcPairs srcVarMap =
      Except.ok
        [{ role := Role.system, content := "Translate the following text to Spanish." },
         { role := Role.user, content := "Good morning!" }] ∧
    ∀ (pairs : List (Role × String)) (V : List (String × String)) (ms : List Message),
      renderChat pairs V = Except.ok ms →
      ms.map Message.role = pairs.map Prod.fst ∧
      ∀ (i : Nat) (h1 : i < pairs.length) (h2 : i < ms.length),
        render (pairs.get ⟨i, h1⟩).2 V = Except.ok ((ms.get ⟨i, h2⟩).content) :=
  ⟨by decide, renderChat_spec⟩

/-- Witness for claim C3 at a one-pair chat template. -/
theorem claim3_witness :
    ([{ role := Role.user, content := "hi" }] : List Message).map Message.role =
      ([(Role.user, "hi")] : List (Role × String)).map Prod.fst :=
  (claim3_theorem.2 [(Role.user, "hi")] []
    [{ role := Role.user, content := "hi" }] (by decide)).1

/-- Claim C4: over structurally valid inputs, `batch` succeeds with a
result sequence of the same length whose i-th element is the `invoke`
result of the i-th input — one-to-one and order-preserving. -/
theorem claim4_theorem (gen : RenderedInput → String) (inputs : List RenderedInput)
    (h : ∀ i ∈ inputs, structurallyValid i = true) :
    ∃ rs, batch gen inputs = Except.ok rs ∧ rs.length = inputs.length ∧
      ∀ (j : Nat) (hj : j < inputs.length) (hj2 : j < rs.length),
        invoke gen (inputs.get ⟨j, hj⟩) = Except.ok (rs.get ⟨j, hj2⟩) := by
  refine ⟨inputs.map (fun i => { content := gen i }), batch_ok gen inputs h, by simp, ?_⟩
  intro j hj hj2
  have hv : structurallyValid (inputs.get ⟨j, hj⟩) = true :=
    h _ (List.get_mem inputs j hj)
  simp only [List.get_eq_getElem, List.getElem_map] at hv ⊢
  simp [invoke, hv]

/-- Witness for claim C4 on a two-element batch. -/
theorem claim4_witness :
    (∀ i ∈ [RenderedInput.text "Say hello in French",
            RenderedInput.text "Say hello in German"], structurallyValid i = true) ∧
    ∃ rs, batch (fun _ => "hello")
        [RenderedInput.text "Say hello in French",
         RenderedInput.text "Say hello in German"] = Except.ok rs ∧
      rs.length = [RenderedInput.text "Say hello in French",
                   RenderedInput.text "Say hello in German"].length ∧
      ∀ (j : Nat) (hj : j < [RenderedInput.text "Say hello in French",
                             RenderedInput.text "Say hello in German"].length)
        (hj2 : j < rs.length),
        invoke (fun _ => "hello")
          ([RenderedInput.text "Say hello in French",
            RenderedInput.text "Say hello in German"].get ⟨j, hj⟩) =
          Except.ok (rs.get ⟨j, hj2⟩) :=
  ⟨by decide, claim4_theorem (fun _ => "hello") _ (by decide)⟩

/-- Claim C5: invoking with an empty Conversation fails with
`InvalidInputError`; no GenerationResult is produced, and the error
value reaches the caller unmodified as the call's outcome. -/
theorem claim5_theorem (gen : RenderedInput → String) :
    invoke gen (RenderedInput.conv []) =
      Except.error (Err.invalidInput "empty conversation") ∧
    ∀ r, invoke gen (RenderedInput.conv []) ≠ Except.ok r := by
  constructor
  · rfl
  · intro r h
    simp [invoke, structurallyValid] at h

/-- Witness for claim C5 at a concrete provider. -/
theorem claim5_witness :
    invoke (fun _ => "hi") (RenderedInput.conv []) =
      Except.error (Err.invalidInput "empty conversation") :=
  (claim5_theorem (fun _ => "hi")).1

/-- Claim C6: whenever `invoke` succeeds, `stream` succeeds with a
finite chunk sequence whose in-order concatenation is exactly the
`invoke` result's content. -/
theorem claim6_theorem (gen : RenderedInput → String) (input : RenderedInput)
    (r : GenerationResult) (h : invoke gen input = Except.ok r) :
    ∃ cs, stream gen input = Except.ok cs ∧ joinAll cs = r.content ∧
      cs.length = r.content.data.length := by
  refine ⟨chunksOf r.content.data, by simp [stream, h], ?_, chunksOf_length _⟩
  rw [joinAll_chunksOf]

/-- Witness for claim C6 at a concrete provider and input. -/
theorem claim6_witness :
    invoke (fun _ => "hi") (RenderedInput.text "q") =
      Except.ok { content := "hi" } ∧
    ∃ cs, stream (fun _ => "hi") (RenderedInput.text "q") = Except.ok cs ∧
      joinAll cs = "hi" ∧ cs.length = "hi".data.length :=
  ⟨by decide, claim6_theorem (fun _ => "hi") (RenderedInput.text "q")
    { content := "hi" } (by decide)⟩

/-- Claim C7: a batch containing any structurally invalid input fails as
a whole — the call returns an error and never a partial result sequence
for the valid inputs. -/
theorem claim7_theorem (gen : RenderedInput → String) (inputs : List RenderedInput)
    (h : ∃ i ∈ inputs, structurallyValid i = false) :
    (∃ e, batch gen inputs = Except.error e) ∧
    ∀ rs, batch gen inputs ≠ Except.ok rs := by
  obtain ⟨e, he⟩ := batch_err gen inputs h
  refine ⟨⟨e, he⟩, ?_⟩
  intro rs hrs
  rw [he] at hrs
  exact Except.noConfusion hrs

/-- Witness for claim C7: one empty Conversation among valid inputs
makes the whole batch fail. -/
theorem claim7_witness :
    (∃ i ∈ [RenderedInput.text "Say hello in French", RenderedInput.conv []],
      structurallyValid i = false) ∧
    ((∃ e, batch (fun _ => "hello")
        [RenderedInput.text "Say hello in French", RenderedInput.conv []] =
        Except.error e) ∧
      ∀ rs, batch (fun _ => "hello")
        [RenderedInput.text "Say hello in French", RenderedInput.conv []] ≠
        Except.ok rs) :=
  ⟨by decide, claim7_theorem (fun _ => "hello") _ (by decide)⟩

/-- Claim C8: message construction with role "narrator" fails with
`InvalidRoleError`, and construction succeeds exactly for the roles
system, user and assistant. -/
theorem claim8_theorem :
    (∀ c, mkMessage "narrator" c = Except.error (Err.invalidRole "narrator")) ∧
    ∀ role c, (∃ m, mkMessage role c = Except.ok m) ↔
      (role = "system" ∨ role = "user" ∨ role = "assistant") := by
  constructor
  · intro c
    simp [mkMessage]
  · intro role c
    constructor
    · intro ⟨m, hm⟩
      by_cases h1 : role = "system"
      · exact Or.inl h1
      by_cases h2 : role = "user"
      · exact Or.inr (Or.inl h2)
      by_cases h3 : role = "assistant"
      · exact Or.inr (Or.inr h3)
      simp [mkMessage, h1, h2, h3] at hm
    · intro h
      rcases h with h | h | h
      · subst h
        exact ⟨{ role := Role.system, content := c }, by simp [mkMessage]⟩
      · subst h
        exact ⟨{ role := Role.user, content := c }, by simp [mkMessage]⟩
      · subst h
        exact ⟨{ role := Role.assistant, content := c }, by simp [mkMessage]⟩

/-- Witness for claim C8 at a concrete content string. -/
theorem claim8_witness :
    mkMessage "narrator" "Once upon a time" =
      Except.error (Err.invalidRole "narrator") :=
  claim8_theorem.1 "Once upon a time"

/-- Claim C9: extra entries whose names are not referenced by the
template are silently ignored — rendering with the extended mapping
equals rendering with the original one, and both succeed; no error about
unused variables exists in the error taxonomy of rendering. -/
theorem claim9_theorem (tpl : String) (V extra : List (String × String))
    (hsup : ∀ n ∈ vars tpl, (lookupVar n V).isSome = true)
    (hextra : ∀ p ∈ extra, p.1 ∉ vars tpl) :
    render tpl (V ++ extra) = render tpl V ∧
    ∃ out, render tpl V = Except.ok out := by
  have hagree : ∀ n ∈ segVars (parseSegs tpl.data),
      lookupVar n (V ++ extra) = lookupVar n V :=
    fun n hn => lookupVar_append_left n V extra (hsup n hn)
  constructor
  · simp [render, renderSegs_congr (V ++ extra) V (parseSegs tpl.data) hagree]
  · obtain ⟨outs, houts⟩ := renderSegs_ok V (parseSegs tpl.data) hsup
    exact ⟨joinAll outs, by simp [render, houts]⟩

/-- Witness for claim C9: an unused entry does not change the source
template's rendering. -/
theorem claim9_witness :
    (∀ n ∈ vars "What is the capital of {country}?",
      (lookupVar n [("country", "India")]).isSome = true) ∧
    (∀ p ∈ [("units", "metric")], p.1 ∉ vars "What is the capital of {country}?") ∧
    (render "What is the capital of {country}?"
        ([("country", "India")] ++ [("units", "metric")]) =
      render "What is the capital of {country}?" [("country", "India")] ∧
      ∃ out, render "What is the capital of {country}?" [("country", "India")] =
        Except.ok out) :=
  ⟨by decide, by decide,
    claim9_theorem "What is the capital of {country}?" [("country", "India")]
      [("units", "metric")] (by decide) (by decide)⟩

/-- Claim C10: rendering is a pure function of the template and the
mapping — equal mappings give equal outputs, and the template value is
never altered, so the same template renders repeatedly under any other
mapping. -/
theorem claim10_theorem (tpl : String) (V W : List (String × String)) (h : V = W) :
    render tpl V = render tpl W ∧
    ∀ U : List (String × String), render tpl U = render tpl U := by
  subst h
  exact ⟨rfl, fun _ => rfl⟩

/-- Witness for claim C10 at the source's template and mapping. -/
theorem claim10_witness :
    ([("country", "India")] : List (String × String)) = [("country", "India")] ∧
    (render "What is the capital of {country}?" [("country", "India")] =
        render "What is the capital of {country}?" [("country", "India")] ∧
      ∀ U : List (String × String),
        render "What is the capital of {country}?" U =
          render "What is the capital of {country}?" U) :=
  ⟨rfl, claim10_theorem "What is the capital of {country}?"
    [("country", "India")] [("country", "India")] rfl⟩

end PromptCore
